import Mathlib

/-!
Verification development for the PDF-to-text OCR pipeline in
src/wordify/mvp.py.

Modelling choices of the shallow embedding:

The external collaborators (poppler rasterization, tesseract OCR, the
filesystem) are modelled as oracles.  A run of the program is determined by:
the boolean outcome of the dependency preflight, whether the input PDF path
exists, the result of rasterization (failure, or a list of pages where each
page carries the outcome its task will encounter), the thread identity each
page task observes, and the order in which the scheduler runs the tasks.

Each page task (PageProcessor.process_page) is a straight-line block under a
catch-all handler whose only shared effects are: creating its own transient
file, deleting it, and inserting into the shared results dict under a lock.
Because distinct tasks touch distinct dict keys and distinct files, and the
dict insert is atomic under the lock, any thread interleaving is equivalent
to executing the task bodies atomically in some sequential order; the model
therefore folds the task bodies over an arbitrary execution order.

The filesystem inside the transient working directory is the list of file
names present; os.rmdir succeeds exactly when that list is empty, and its
failure is caught by the outer handler of extract_text_from_pdf, which then
returns None.  ThreadPoolExecutor raising ValueError on max_workers less
than 1 is part of the stdlib contract the code relies on; the model encodes
that a non-positive thread count sends the run to the outer handler.
-/

namespace Wordify

/-- Outcome met by the three fallible steps of one page task, mirroring
which statement of the try block in process_page raises, if any:
image.save (persist), pytesseract.image_to_string (OCR), or os.remove
(cleanup).  On ok the OCR call returned the given text. -/
inductive PageOutcome where
  | ok (text : String)
  | persistFail
  | ocrFail
  | cleanupFail
deriving DecidableEq

/-- True for the outcomes after which the transient image file written by
the task is still on disk when the task returns: the file exists from the
end of image.save until os.remove, and neither an OCR error nor a cleanup
error deletes it. -/
def PageOutcome.leavesFile : PageOutcome → Bool
  | .ocrFail => true
  | .cleanupFail => true
  | _ => false

/-- What one page task records into the shared results dict: the OCR text on
success, nothing on failure (the except branch of process_page only returns,
it does not write the dict). -/
def PageOutcome.recorded : PageOutcome → Option String
  | .ok text => some text
  | _ => none

/-- Line 112 of mvp.py: the fixed name of the transient working directory. -/
def temp_dir : String := "temp_ocr_images"

/-- Line 61: the f-string page_..._thread_....png naming one transient file. -/
def page_filename (page_num thread_id : Nat) : String :=
  "page_" ++ toString page_num ++ "_thread_" ++ toString thread_id ++ ".png"

/-- Line 61: os.path.join of the working directory and the page file name. -/
def image_path (dir : String) (page_num thread_id : Nat) : String :=
  dir ++ "/" ++ page_filename page_num thread_id

/-- State shared by the page tasks: the transient files currently present in
the working directory, and the results dict of the PageProcessor.  The dict
is modelled as an association list where an insert conses to the front and
lookup takes the most recent binding, matching last-write-wins. -/
structure ProcState where
  files : List String
  results : List (Nat × String)
deriving DecidableEq

/-- PageProcessor.process_page, lines 53 to 80 of mvp.py.  On ok: the image
is saved (file created), OCR returns the text, the file is removed, and
(page_num, text) is inserted into the results dict under the lock, then
returned.  On any failure the except branch returns (page_num, "") without
touching the results dict; whatever files the failed prefix created stay on
disk (the except branch performs no cleanup). -/
def process_page (dir : String) (st : ProcState) (page_num thread_id : Nat)
    (outcome : PageOutcome) : ProcState × (Nat × String) :=
  let path := image_path dir page_num thread_id
  match outcome with
  | .persistFail => (st, (page_num, ""))
  | .ocrFail => (⟨path :: st.files, st.results⟩, (page_num, ""))
  | .cleanupFail => (⟨path :: st.files, st.results⟩, (page_num, ""))
  | .ok text =>
      (⟨(path :: st.files).erase path, (page_num, text) :: st.results⟩,
        (page_num, text))

/-- The thread pool running every submitted page task to completion:
the task bodies execute atomically (see the header comment) in the order
given by the scheduler, each task being the page number, the thread identity
it observes, and the outcome its external calls meet. -/
def runTasks (tasks : List (Nat × Nat × PageOutcome)) (st : ProcState) :
    ProcState :=
  tasks.foldl (fun s a => (process_page temp_dir s a.1 a.2.1 a.2.2).1) st

/-- Line 146: the page delimiter header prepended to each recorded page. -/
def page_header (i : Nat) : String :=
  "\n\n--- Page " ++ toString i ++ " ---\n\n"

/-- Lines 143 to 146: reassembly.  Iterate page numbers 1..n in ascending
order; a page number present in the results dict contributes its header and
text, a page number absent from the dict contributes nothing. -/
def combine (results : List (Nat × String)) (n : Nat) : String :=
  (List.range' 1 n).foldl (fun acc i =>
    match results.lookup i with
    | some t => acc ++ (page_header i ++ t)
    | none => acc) ""

/-- The outcome destined for page p when rasterization produced the given
page list: pages are numbered 1..length in document order (line 130 tags
task i with page i+1).  The default of the out-of-range lookup is never
reached under the page-range hypotheses of the theorems. -/
def outcomeAt (outcomes : List PageOutcome) (p : Nat) : PageOutcome :=
  outcomes.getD (p - 1) .persistFail

/-- Lines 120 to 122: the worker count, defaulting to the CPU count when
max_threads is not given. -/
def threadCount (max_threads : Option Int) (cpu_count : Nat) : Int :=
  match max_threads with
  | none => (cpu_count : Int)
  | some v => v

/-- Observable outcome of one call of extract_text_from_pdf: its return
value, the transient files surviving in the working directory, whether
os.rmdir on the working directory succeeded, the output file written if
any, and the pages whose tasks were executed. -/
structure RunOutcome where
  result : Option String
  leftoverFiles : List String
  tempDirRemoved : Bool
  outputWritten : Option String
  processed : List Nat
deriving DecidableEq

/-- extract_text_from_pdf, lines 82 to 166 of mvp.py.  The guard clauses
return None before any page work; a rasterization failure propagates to the
outer handler; ThreadPoolExecutor raises ValueError on a non-positive
worker count, also caught by the outer handler; otherwise every page task
runs to completion, the results are reassembled in ascending page order,
and os.rmdir of the working directory either succeeds (directory empty: the
text is returned, and first written to the output file when one was given)
or raises on a leftover file, sending the run to the outer handler which
returns None before any output is written. -/
def extract_text_from_pdf (deps_ok pdf_exists : Bool)
    (raster : Option (List PageOutcome)) (max_threads : Option Int)
    (cpu_count : Nat) (tids : Nat → Nat) (order : List Nat)
    (output_file : Option String) : RunOutcome :=
  if deps_ok = false then ⟨none, [], false, none, []⟩
  else if pdf_exists = false then ⟨none, [], false, none, []⟩
  else
    match raster with
    | none => ⟨none, [], false, none, []⟩
    | some outcomes =>
      if threadCount max_threads cpu_count ≤ 0 then ⟨none, [], false, none, []⟩
      else
        let st := runTasks
          (order.map fun p => (p, tids p, outcomeAt outcomes p)) ⟨[], []⟩
        if st.files.isEmpty then
          ⟨some (combine st.results outcomes.length), [], true, output_file,
            order⟩
        else ⟨none, st.files, false, none, order⟩

/-- Description, derived below from the code, of the text the reassembly
loop builds: ascending over pages 1..N, a page whose task succeeded
contributes its header and text, a failed page contributes nothing. -/
def assembled (outcomes : List PageOutcome) : String :=
  (List.range' 1 outcomes.length).foldl (fun acc i =>
    match outcomeAt outcomes i with
    | .ok t => acc ++ (page_header i ++ t)
    | _ => acc) ""

/-- Document as the spec words it for an all-success run: the ordered
concatenation of the page texts for page numbers 1..N, each prefixed with
its page header. -/
def specDocument (texts : List String) : String :=
  (List.range' 1 texts.length).foldl (fun acc i =>
    acc ++ (page_header i ++ texts.getD (i - 1) "")) ""

/-! Basic facts about one page task. -/

theorem process_page_results (dir : String) (st : ProcState) (p t : Nat)
    (o : PageOutcome) :
    (process_page dir st p t o).1.results =
      match o with
      | .ok txt => (p, txt) :: st.results
      | _ => st.results := by
  cases o <;> rfl

theorem process_page_files (dir : String) (st : ProcState) (p t : Nat)
    (o : PageOutcome) :
    (process_page dir st p t o).1.files =
      if o.leavesFile then image_path dir p t :: st.files else st.files := by
  cases o <;> simp [process_page, PageOutcome.leavesFile]

theorem runTasks_nil (st : ProcState) : runTasks [] st = st := rfl

theorem runTasks_cons (a : Nat × Nat × PageOutcome)
    (ts : List (Nat × Nat × PageOutcome)) (st : ProcState) :
    runTasks (a :: ts) st =
      runTasks ts (process_page temp_dir st a.1 a.2.1 a.2.2).1 := rfl

/-! How the pool leaves the shared state. -/

theorem runTasks_files_length (ts : List (Nat × Nat × PageOutcome))
    (st : ProcState) :
    (runTasks ts st).files.length =
      ts.countP (fun a => a.2.2.leavesFile) + st.files.length := by
  induction ts generalizing st with
  | nil => simp [runTasks_nil]
  | cons a ts ih =>
    rw [runTasks_cons, ih, List.countP_cons]
    rw [process_page_files]
    cases h : a.2.2.leavesFile
    · simp [h]
    · simp [h]
      omega

theorem runTasks_lookup_not_mem (ts : List (Nat × Nat × PageOutcome))
    (st : ProcState) (p : Nat) (h : p ∉ ts.map (fun a => a.1)) :
    (runTasks ts st).results.lookup p = st.results.lookup p := by
  induction ts generalizing st with
  | nil => rfl
  | cons a ts ih =>
    simp only [List.map_cons, List.mem_cons, not_or] at h
    rw [runTasks_cons, ih _ h.2]
    rw [process_page_results]
    cases a.2.2 <;> simp [List.lookup_cons, beq_eq_false_iff_ne.mpr h.1]

theorem runTasks_lookup_of_ok (ts : List (Nat × Nat × PageOutcome))
    (st : ProcState) (p t : Nat) (txt : String)
    (hnd : (ts.map (fun a => a.1)).Nodup) (hm : (p, t, PageOutcome.ok txt) ∈ ts) :
    (runTasks ts st).results.lookup p = some txt := by
  induction ts generalizing st with
  | nil => cases hm
  | cons a ts ih =>
    simp only [List.map_cons, List.nodup_cons] at hnd
    rcases List.mem_cons.mp hm with hh | hh
    · subst hh
      rw [runTasks_cons, runTasks_lookup_not_mem _ _ _ hnd.1]
      rw [process_page_results]
      simp [List.lookup_cons]
    · exact ih _ hnd.2 hh

theorem runTasks_lookup_of_fail (ts : List (Nat × Nat × PageOutcome))
    (st : ProcState) (p t : Nat) (o : PageOutcome)
    (hnd : (ts.map (fun a => a.1)).Nodup) (hm : (p, t, o) ∈ ts)
    (ho : o.recorded = none) :
    (runTasks ts st).results.lookup p = st.results.lookup p := by
  induction ts generalizing st with
  | nil => cases hm
  | cons a ts ih =>
    simp only [List.map_cons, List.nodup_cons] at hnd
    rcases List.mem_cons.mp hm with hh | hh
    · subst hh
      rw [runTasks_cons, runTasks_lookup_not_mem _ _ _ hnd.1]
      rw [process_page_results]
      cases o <;> simp_all [PageOutcome.recorded]
    · have hne : a.1 ≠ p := by
        intro hc
        exact hnd.1 (hc ▸ List.mem_map.mpr ⟨(p, t, o), hh, rfl⟩)
      rw [runTasks_cons, ih _ hnd.2 hh]
      rw [process_page_results]
      cases a.2.2 <;>
        simp [List.lookup_cons, beq_eq_false_iff_ne.mpr (Ne.symm hne)]

/-! Generic fold congruence used to compare the reassembly loop with its
descriptions. -/

theorem foldl_congr_mem {α β : Type} (l : List α) (f g : β → α → β) (b : β)
    (h : ∀ a ∈ l, ∀ x, f x a = g x a) : l.foldl f b = l.foldl g b := by
  induction l generalizing b with
  | nil => rfl
  | cons a l ih =>
    simp only [List.foldl_cons]
    rw [h a (List.mem_cons_self a l) b]
    exact ih _ (fun a ha x => h a (List.mem_cons_of_mem _ ha) x)

theorem combine_of_lookup (results : List (Nat × String)) (n : Nat)
    (f : Nat → Option String)
    (h : ∀ i ∈ List.range' 1 n, results.lookup i = f i) :
    combine results n = (List.range' 1 n).foldl (fun acc i =>
      match f i with
      | some t => acc ++ (page_header i ++ t)
      | none => acc) "" := by
  unfold combine
  exact foldl_congr_mem _ _ _ _ (fun i hi acc => by rw [h i hi])

/-! Relating the page range 1..N to the rasterized page list. -/

theorem outcomeAt_getElem (outcomes : List PageOutcome) (i : Nat)
    (h : i < outcomes.length) : outcomeAt outcomes (1 + i) = outcomes[i] := by
  unfold outcomeAt
  have hidx : 1 + i - 1 = i := by omega
  rw [hidx, List.getD_eq_getElem?_getD, List.getElem?_eq_getElem h]
  rfl

theorem map_outcomeAt_range' (outcomes : List PageOutcome) :
    (List.range' 1 outcomes.length).map (fun p => outcomeAt outcomes p) =
      outcomes := by
  apply List.ext_getElem
  · simp
  · intro n h1 h2
    simp only [List.getElem_map, List.getElem_range', Nat.mul_one, Nat.one_mul]
    exact outcomeAt_getElem outcomes n h2

/-! The state the pool leaves behind, for a scheduler order that is a
permutation of the page numbers 1..N. -/

theorem run_lookup (outcomes : List PageOutcome) (tids : Nat → Nat)
    (order : List Nat)
    (hperm : order.Perm (List.range' 1 outcomes.length)) (p : Nat)
    (hp : p ∈ List.range' 1 outcomes.length) :
    (runTasks (order.map fun q => (q, tids q, outcomeAt outcomes q))
        ⟨[], []⟩).results.lookup p = (outcomeAt outcomes p).recorded := by
  have hnd : order.Nodup :=
    hperm.symm.nodup (List.nodup_range' 1 outcomes.length)
  have hporder : p ∈ order := hperm.mem_iff.mpr hp
  have hmap : ((order.map fun q => (q, tids q, outcomeAt outcomes q)).map
      fun a => a.1) = order := by
    rw [List.map_map]
    exact List.map_id order
  cases h : outcomeAt outcomes p with
  | ok txt =>
    rw [runTasks_lookup_of_ok _ ⟨[], []⟩ p (tids p) txt
      (by rw [hmap]; exact hnd) (List.mem_map.mpr ⟨p, hporder, by rw [h]⟩)]
    rfl
  | persistFail =>
    rw [runTasks_lookup_of_fail _ ⟨[], []⟩ p (tids p) PageOutcome.persistFail
      (by rw [hmap]; exact hnd) (List.mem_map.mpr ⟨p, hporder, by rw [h]⟩) rfl]
    rfl
  | ocrFail =>
    rw [runTasks_lookup_of_fail _ ⟨[], []⟩ p (tids p) PageOutcome.ocrFail
      (by rw [hmap]; exact hnd) (List.mem_map.mpr ⟨p, hporder, by rw [h]⟩) rfl]
    rfl
  | cleanupFail =>
    rw [runTasks_lookup_of_fail _ ⟨[], []⟩ p (tids p) PageOutcome.cleanupFail
      (by rw [hmap]; exact hnd) (List.mem_map.mpr ⟨p, hporder, by rw [h]⟩) rfl]
    rfl

theorem run_files_count (outcomes : List PageOutcome) (tids : Nat → Nat)
    (order : List Nat)
    (hperm : order.Perm (List.range' 1 outcomes.length)) :
    (runTasks (order.map fun q => (q, tids q, outcomeAt outcomes q))
        ⟨[], []⟩).files.length =
      outcomes.countP (fun o => o.leavesFile) := by
  rw [runTasks_files_length]
  rw [List.countP_map]
  have h1 : ((fun a : Nat × Nat × PageOutcome => a.2.2.leavesFile) ∘
      fun q => (q, tids q, outcomeAt outcomes q)) =
      fun q => (outcomeAt outcomes q).leavesFile := rfl
  rw [h1, List.Perm.countP_eq _ hperm]
  conv_rhs => rw [← map_outcomeAt_range' outcomes]
  rw [List.countP_map]
  rfl

theorem run_files_empty_iff (outcomes : List PageOutcome) (tids : Nat → Nat)
    (order : List Nat)
    (hperm : order.Perm (List.range' 1 outcomes.length)) :
    (runTasks (order.map fun q => (q, tids q, outcomeAt outcomes q))
        ⟨[], []⟩).files = [] ↔
      ∀ o ∈ outcomes, o.leavesFile = false := by
  rw [← List.length_eq_zero, run_files_count _ _ _ hperm,
    List.countP_eq_zero]
  simp [Bool.not_eq_true]

theorem combine_run_eq_assembled (outcomes : List PageOutcome)
    (tids : Nat → Nat) (order : List Nat)
    (hperm : order.Perm (List.range' 1 outcomes.length)) :
    combine (runTasks (order.map fun q => (q, tids q, outcomeAt outcomes q))
        ⟨[], []⟩).results outcomes.length = assembled outcomes := by
  rw [combine_of_lookup _ _ (fun i => (outcomeAt outcomes i).recorded)
    (fun i hi => run_lookup outcomes tids order hperm i hi)]
  unfold assembled
  apply foldl_congr_mem
  intro i _ acc
  cases outcomeAt outcomes i <;> rfl

/-! Unfolding one completed run of extract_text_from_pdf. -/

theorem extract_run (outcomes : List PageOutcome) (mtv : Option Int)
    (cpu : Nat) (tids : Nat → Nat) (order : List Nat) (out : Option String)
    (hmt : 0 < threadCount mtv cpu) :
    extract_text_from_pdf true true (some outcomes) mtv cpu tids order out =
      (if (runTasks (order.map fun p => (p, tids p, outcomeAt outcomes p))
          ⟨[], []⟩).files.isEmpty then
        ⟨some (combine (runTasks
            (order.map fun p => (p, tids p, outcomeAt outcomes p))
            ⟨[], []⟩).results outcomes.length), [], true, out, order⟩
      else
        ⟨none, (runTasks (order.map fun p => (p, tids p, outcomeAt outcomes p))
          ⟨[], []⟩).files, false, none, order⟩) := by
  unfold extract_text_from_pdf
  rw [if_neg (by decide), if_neg (by decide)]
  simp only [if_neg (not_le.mpr hmt)]

/-! Facts about the decimal representation behind toString on Nat, needed
for the collision-freedom of the transient file names: the representation
uses digit characters only (in particular never an underscore) and is
injective. -/

theorem toDigitsCore_succ (b fuel n : Nat) (ds : List Char) :
    Nat.toDigitsCore b (fuel + 1) n ds =
      if n / b = 0 then Nat.digitChar (n % b) :: ds
      else Nat.toDigitsCore b fuel (n / b) (Nat.digitChar (n % b) :: ds) := by
  simp only [Nat.toDigitsCore]

theorem toDigitsCore_append (b fuel : Nat) : ∀ (n : Nat) (ds : List Char),
    Nat.toDigitsCore b fuel n ds = Nat.toDigitsCore b fuel n [] ++ ds := by
  induction fuel with
  | zero => intro n ds; rfl
  | succ fuel ih =>
    intro n ds
    rw [toDigitsCore_succ, toDigitsCore_succ]
    by_cases h : n / b = 0
    · simp [h]
    · rw [if_neg h, if_neg h, ih (n / b), ih (n / b) [Nat.digitChar (n % b)]]
      simp

theorem toDigitsCore_mem_digit (fuel : Nat) :
    ∀ (n : Nat) (ds : List Char) (c : Char),
    c ∈ Nat.toDigitsCore 10 fuel n ds →
      c ∈ ds ∨ ∃ m, m < 10 ∧ c = Nat.digitChar m := by
  induction fuel with
  | zero => intro n ds c hc; exact Or.inl hc
  | succ fuel ih =>
    intro n ds c hc
    rw [toDigitsCore_succ] at hc
    by_cases h : n / 10 = 0
    · rw [if_pos h] at hc
      rcases List.mem_cons.mp hc with h1 | h1
      · exact Or.inr ⟨n % 10, Nat.mod_lt _ (by norm_num), h1⟩
      · exact Or.inl h1
    · rw [if_neg h] at hc
      rcases ih (n / 10) _ c hc with h1 | h1
      · rcases List.mem_cons.mp h1 with h2 | h2
        · exact Or.inr ⟨n % 10, Nat.mod_lt _ (by norm_num), h2⟩
        · exact Or.inl h2
      · exact Or.inr h1

theorem digitChar_ne_underscore (m : Nat) (h : m < 10) :
    Nat.digitChar m ≠ '_' := by
  interval_cases m <;> decide

theorem repr_no_underscore (n : Nat) : '_' ∉ (Nat.repr n).data := by
  intro hc
  have hmem : '_' ∈ Nat.toDigitsCore 10 (n + 1) n [] := hc
  rcases toDigitsCore_mem_digit _ _ _ _ hmem with h | ⟨m, hm, he⟩
  · cases h
  · exact digitChar_ne_underscore m hm he.symm

/-- Numeric value of a decimal digit character, used only to invert the
representation in the injectivity proof. -/
def digitVal (c : Char) : Nat := c.toNat - 48

theorem digitVal_digitChar (m : Nat) (h : m < 10) :
    digitVal (Nat.digitChar m) = m := by
  interval_cases m <;> decide

theorem valAux_toDigitsCore (fuel : Nat) : ∀ (n a : Nat), n < fuel →
    (Nat.toDigitsCore 10 fuel n []).foldl (fun acc c => 10 * acc + digitVal c)
        a =
      a * 10 ^ (Nat.toDigitsCore 10 fuel n []).length + n := by
  induction fuel with
  | zero => intro n a h; exact absurd h (Nat.not_lt_zero n)
  | succ fuel ih =>
    intro n a h
    rw [toDigitsCore_succ]
    by_cases h0 : n / 10 = 0
    · rw [if_pos h0]
      have hn : n < 10 := (Nat.div_eq_zero_iff (by norm_num)).mp h0
      simp [Nat.mod_eq_of_lt hn, digitVal_digitChar n hn]
      ring
    · rw [if_neg h0]
      rw [toDigitsCore_append]
      have hpos : 0 < n := Nat.pos_of_ne_zero (fun hn => h0 (by simp [hn]))
      have hfuel : n / 10 < fuel := by
        have h1 : n / 10 < n := Nat.div_lt_self hpos (by norm_num)
        omega
      rw [List.foldl_append, ih (n / 10) a hfuel]
      simp only [List.foldl_cons, List.foldl_nil, List.length_append,
        List.length_cons, List.length_nil]
      rw [digitVal_digitChar (n % 10) (Nat.mod_lt _ (by norm_num))]
      calc 10 * (a * 10 ^ (Nat.toDigitsCore 10 fuel (n / 10) []).length
              + n / 10) + n % 10
          = a * (10 ^ (Nat.toDigitsCore 10 fuel (n / 10) []).length * 10)
              + (10 * (n / 10) + n % 10) := by ring
        _ = a * 10 ^ ((Nat.toDigitsCore 10 fuel (n / 10) []).length + (0 + 1))
              + n := by rw [Nat.div_add_mod]; ring

theorem repr_injective (n m : Nat) (h : Nat.repr n = Nat.repr m) : n = m := by
  have hl : Nat.toDigitsCore 10 (n + 1) n [] =
      Nat.toDigitsCore 10 (m + 1) m [] := congrArg String.data h
  have h1 := valAux_toDigitsCore (n + 1) n 0 (Nat.lt_succ_self n)
  have h2 := valAux_toDigitsCore (m + 1) m 0 (Nat.lt_succ_self m)
  rw [hl] at h1
  simp only [Nat.zero_mul] at h1 h2
  omega

theorem toString_nat_injective (n m : Nat)
    (h : (toString n : String) = toString m) : n = m :=
  repr_injective n m h

/-- Splitting an underscore-separated concatenation: when neither prefix
contains the separator, equal concatenations have equal parts. -/
theorem append_underscore_inj : ∀ (xs ys r1 r2 : List Char),
    '_' ∉ xs → '_' ∉ ys →
    xs ++ '_' :: r1 = ys ++ '_' :: r2 → xs = ys ∧ r1 = r2 := by
  intro xs
  induction xs with
  | nil =>
    intro ys r1 r2 _ hys h
    cases ys with
    | nil => simpa using h
    | cons y ys =>
      simp only [List.nil_append, List.cons_append] at h
      obtain ⟨h1, _⟩ := List.cons.inj h
      subst h1
      exact absurd (List.mem_cons_self _ _) hys
  | cons x xs ih =>
    intro ys r1 r2 hxs hys h
    cases ys with
    | nil =>
      simp only [List.cons_append, List.nil_append] at h
      obtain ⟨h1, _⟩ := List.cons.inj h
      subst h1
      exact absurd (List.mem_cons_self _ _) hxs
    | cons y ys =>
      simp only [List.cons_append] at h
      obtain ⟨h1, h2⟩ := List.cons.inj h
      subst h1
      have hxs' : '_' ∉ xs := fun hc => hxs (List.mem_cons_of_mem _ hc)
      have hys' : '_' ∉ ys := fun hc => hys (List.mem_cons_of_mem _ hc)
      obtain ⟨e1, e2⟩ := ih ys r1 r2 hxs' hys' h2
      exact ⟨by rw [e1], e2⟩

theorem page_filename_inj (p1 t1 p2 t2 : Nat)
    (h : page_filename p1 t1 = page_filename p2 t2) : p1 = p2 ∧ t1 = t2 := by
  unfold page_filename at h
  have hd := congrArg String.data h
  simp only [String.data_append, List.append_assoc] at hd
  have hd2 := List.append_cancel_left hd
  have hsh : ∀ s : List Char, "_thread_".data ++ s =
      '_' :: ("thread_".data ++ s) := fun s => rfl
  rw [hsh, hsh] at hd2
  obtain ⟨e1, e2⟩ := append_underscore_inj _ _ _ _
    (repr_no_underscore p1) (repr_no_underscore p2) hd2
  have hp : p1 = p2 := toString_nat_injective _ _ (String.ext e1)
  have e3 := List.append_cancel_left e2
  have e4 := List.append_cancel_right e3
  have ht : t1 = t2 := toString_nat_injective _ _ (String.ext e4)
  exact ⟨hp, ht⟩

theorem image_path_inj (dir : String) (p1 t1 p2 t2 : Nat)
    (h : image_path dir p1 t1 = image_path dir p2 t2) : p1 = p2 ∧ t1 = t2 := by
  unfold image_path at h
  have hd := congrArg String.data h
  simp only [String.data_append, List.append_assoc] at hd
  have hd2 := List.append_cancel_left hd
  have hd3 := List.append_cancel_left hd2
  exact page_filename_inj _ _ _ _ (String.ext hd3)

/-! Evaluating outcomeAt on the page lists used by the claims: an all-ok
run, and an all-ok run with one page overridden to an OCR failure. -/

theorem outcomeAt_map_ok (texts : List String) (i : Nat)
    (hi : i ∈ List.range' 1 texts.length) :
    outcomeAt (texts.map PageOutcome.ok) i =
      PageOutcome.ok (texts.getD (i - 1) "") := by
  obtain ⟨h1, h2⟩ := List.mem_range'_1.mp hi
  have hj : i - 1 < texts.length := by omega
  unfold outcomeAt
  rw [List.getD_eq_getElem?_getD, List.getElem?_eq_getElem (by simpa using hj),
    List.getElem_map, List.getD_eq_getElem?_getD,
    List.getElem?_eq_getElem hj]
  rfl

theorem outcomeAt_set_ocrFail_self (texts : List String) (k : Nat)
    (hk : k ∈ List.range' 1 texts.length) :
    outcomeAt ((texts.map PageOutcome.ok).set (k - 1) PageOutcome.ocrFail) k =
      PageOutcome.ocrFail := by
  obtain ⟨h1, h2⟩ := List.mem_range'_1.mp hk
  have hj : k - 1 < ((texts.map PageOutcome.ok).set (k - 1)
      PageOutcome.ocrFail).length := by
    rw [List.length_set, List.length_map]; omega
  unfold outcomeAt
  rw [List.getD_eq_getElem?_getD, List.getElem?_eq_getElem hj,
    List.getElem_set_self hj]
  rfl

theorem outcomeAt_set_ocrFail_ne (texts : List String) (k i : Nat)
    (hi : i ∈ List.range' 1 texts.length)
    (hk : k ∈ List.range' 1 texts.length) (hne : i ≠ k) :
    outcomeAt ((texts.map PageOutcome.ok).set (k - 1) PageOutcome.ocrFail) i =
      PageOutcome.ok (texts.getD (i - 1) "") := by
  obtain ⟨hi1, hi2⟩ := List.mem_range'_1.mp hi
  obtain ⟨hk1, hk2⟩ := List.mem_range'_1.mp hk
  have hj : i - 1 < ((texts.map PageOutcome.ok).set (k - 1)
      PageOutcome.ocrFail).length := by
    rw [List.length_set, List.length_map]; omega
  have hj2 : i - 1 < texts.length := by omega
  have hidx : k - 1 ≠ i - 1 := by omega
  unfold outcomeAt
  rw [List.getD_eq_getElem?_getD, List.getElem?_eq_getElem hj,
    List.getElem_set_ne hidx, List.getElem_map,
    List.getD_eq_getElem?_getD, List.getElem?_eq_getElem hj2]
  rfl

theorem assembled_map_ok (texts : List String) :
    assembled (texts.map PageOutcome.ok) = specDocument texts := by
  unfold assembled specDocument
  rw [List.length_map]
  apply foldl_congr_mem
  intro i hi acc
  rw [outcomeAt_map_ok texts i hi]

theorem map_ok_no_leaves (texts : List String) :
    ∀ o ∈ texts.map PageOutcome.ok, o.leavesFile = false := by
  intro o ho
  obtain ⟨t, _, rfl⟩ := List.mem_map.mp ho
  rfl

/-! Claim theorems. -/

/-- C1, corrected.  The claim asserts that on a failure process_page still
records (pageNumber, "") into the shared store, so that after all tasks
join the store has an entry for every page 1..N.  In the code the except
branch returns (pageNumber, "") to its caller without writing the results
dict, so the store receives an entry exactly for the pages whose task
succeeded: on success (pageNumber, text) is inserted, on any failure
nothing is, and after all tasks join the lookup of each page yields
precisely what its outcome recorded (the OCR text on success, nothing on
failure). -/
theorem store_records_exactly_successes :
    (∀ (dir : String) (st : ProcState) (p t : Nat) (o : PageOutcome),
      (process_page dir st p t o).1.results =
        match o with
        | .ok txt => (p, txt) :: st.results
        | _ => st.results) ∧
    (∀ (outcomes : List PageOutcome) (tids : Nat → Nat) (order : List Nat),
      order.Perm (List.range' 1 outcomes.length) →
      ∀ p ∈ List.range' 1 outcomes.length,
        (runTasks (order.map fun q => (q, tids q, outcomeAt outcomes q))
            ⟨[], []⟩).results.lookup p = (outcomeAt outcomes p).recorded) :=
  ⟨process_page_results, fun outcomes tids order hperm p hp =>
    run_lookup outcomes tids order hperm p hp⟩

/-- Witness for C1 at a concrete run: pages (1, ok x) and (2, OCR failure)
executed in the order 2, 1; after the join the store holds the entry for
page 1 and no entry for page 2. -/
theorem store_records_exactly_successes_witness :
    (runTasks ([2, 1].map fun q =>
        (q, 7, outcomeAt [PageOutcome.ok "x", PageOutcome.ocrFail] q))
      ⟨[], []⟩).results.lookup 1 = some "x" ∧
    (runTasks ([2, 1].map fun q =>
        (q, 7, outcomeAt [PageOutcome.ok "x", PageOutcome.ocrFail] q))
      ⟨[], []⟩).results.lookup 2 = none :=
  ⟨store_records_exactly_successes.2 [PageOutcome.ok "x", PageOutcome.ocrFail]
      (fun _ => 7) [2, 1] (by decide) 1 (by decide),
    store_records_exactly_successes.2 [PageOutcome.ok "x", PageOutcome.ocrFail]
      (fun _ => 7) [2, 1] (by decide) 2 (by decide)⟩

/-- Counterexample to C1 as stated: page 1 fails during OCR and after the
call the store is still empty; in particular the lookup of page 1 yields
nothing, where the claim asserts the entry (1, "") would have been
recorded. -/
theorem failed_page_not_recorded :
    (process_page "temp_ocr_images" ⟨[], []⟩ 1 7
        PageOutcome.ocrFail).1.results = [] ∧
    (process_page "temp_ocr_images" ⟨[], []⟩ 1 7
        PageOutcome.ocrFail).1.results.lookup 1 = none :=
  ⟨rfl, rfl⟩

/-- C2, corrected.  The claim asserts the Document keeps N sections with an
empty body and a header for the failed page k.  In the code the reassembly
loop skips any page number absent from the store, so the text it builds has
N-1 sections and page k contributes neither header nor body (the other
sections are unaffected); moreover the failed task leaves its transient
file behind, the final os.rmdir fails, and extract_text_from_pdf returns
None instead of that Document. -/
theorem failed_page_section_omitted (texts : List String) (k : Nat)
    (mtv : Option Int) (cpu : Nat) (tids : Nat → Nat) (order : List Nat)
    (out : Option String) (hmt : 0 < threadCount mtv cpu)
    (hk : k ∈ List.range' 1 texts.length)
    (hperm : order.Perm (List.range' 1 texts.length)) :
    (extract_text_from_pdf true true
        (some ((texts.map PageOutcome.ok).set (k - 1) PageOutcome.ocrFail))
        mtv cpu tids order out).result = none ∧
    assembled ((texts.map PageOutcome.ok).set (k - 1) PageOutcome.ocrFail) =
      (List.range' 1 texts.length).foldl (fun acc i =>
        if i = k then acc
        else acc ++ (page_header i ++ texts.getD (i - 1) "")) "" := by
  have hlen : ((texts.map PageOutcome.ok).set (k - 1)
      PageOutcome.ocrFail).length = texts.length := by
    rw [List.length_set, List.length_map]
  constructor
  · rw [extract_run _ _ _ _ _ _ hmt]
    have hperm' : order.Perm (List.range' 1 ((texts.map PageOutcome.ok).set
        (k - 1) PageOutcome.ocrFail).length) := by
      rw [hlen]; exact hperm
    obtain ⟨hk1, hk2⟩ := List.mem_range'_1.mp hk
    have hkj : k - 1 < ((texts.map PageOutcome.ok).set (k - 1)
        PageOutcome.ocrFail).length := by rw [hlen]; omega
    have hmem : PageOutcome.ocrFail ∈
        (texts.map PageOutcome.ok).set (k - 1) PageOutcome.ocrFail := by
      have h1 := List.getElem_mem hkj
      rw [List.getElem_set_self hkj] at h1
      exact h1
    have hnonempty : ¬((runTasks (order.map fun q => (q, tids q,
        outcomeAt ((texts.map PageOutcome.ok).set (k - 1)
          PageOutcome.ocrFail) q)) ⟨[], []⟩).files = []) := by
      intro hc
      have hfalse := (run_files_empty_iff _ _ _ hperm').mp hc
        PageOutcome.ocrFail hmem
      cases hfalse
    rw [if_neg (fun hc => hnonempty (List.isEmpty_iff.mp hc))]
  · unfold assembled
    rw [hlen]
    apply foldl_congr_mem
    intro i hi acc
    by_cases hik : i = k
    · subst hik
      rw [outcomeAt_set_ocrFail_self texts i hk, if_pos rfl]
    · rw [outcomeAt_set_ocrFail_ne texts k i hi hk hik, if_neg hik]

/-- Witness for C2: three pages A, B, C with page 2 failing during OCR; the
run returns None and the assembled text holds exactly the sections of pages
1 and 3. -/
theorem failed_page_section_omitted_witness :
    (extract_text_from_pdf true true
        (some ((["A", "B", "C"].map PageOutcome.ok).set 1 PageOutcome.ocrFail))
        (some 2) 4 (fun _ => 7) [2, 1, 3] none).result = none ∧
    assembled ((["A", "B", "C"].map PageOutcome.ok).set 1 PageOutcome.ocrFail) =
      (List.range' 1 3).foldl (fun acc i =>
        if i = 2 then acc
        else acc ++ (page_header i ++ ["A", "B", "C"].getD (i - 1) "")) "" :=
  failed_page_section_omitted ["A", "B", "C"] 2 (some 2) 4 (fun _ => 7)
    [2, 1, 3] none (by decide) (by decide) (by decide)

/-- Counterexample to C2 as stated, at the input of the example in the
spec: three pages whose OCR texts would be A, B, C, page 2 raising in the
OCR call.  The claim asserts the run yields the three-section Document with
an empty section 2; the code returns no Document at all. -/
theorem spec_example_not_three_sections :
    (extract_text_from_pdf true true
        (some [PageOutcome.ok "A", PageOutcome.ocrFail, PageOutcome.ok "C"])
        (some 2) 4 (fun _ => 7) [1, 2, 3] none).result = none := rfl

/-- C3, corrected.  The claim asserts an isolated page failure never aborts
the run.  That holds only for persist-step failures, which leave no
transient file: then the run completes and returns the assembled Document.
A page failing during OCR or cleanup leaves its transient file behind, the
final os.rmdir of the working directory then raises, the outer handler
catches it, and extract_text_from_pdf returns None. -/
theorem page_failure_abort_characterization (outcomes : List PageOutcome)
    (mtv : Option Int) (cpu : Nat) (tids : Nat → Nat) (order : List Nat)
    (out : Option String) (hmt : 0 < threadCount mtv cpu)
    (hperm : order.Perm (List.range' 1 outcomes.length)) :
    ((∀ o ∈ outcomes, o.leavesFile = false) →
      (extract_text_from_pdf true true (some outcomes) mtv cpu tids order
          out).result = some (assembled outcomes)) ∧
    ((∃ o ∈ outcomes, o.leavesFile = true) →
      (extract_text_from_pdf true true (some outcomes) mtv cpu tids order
          out).result = none) := by
  constructor
  · intro hall
    rw [extract_run _ _ _ _ _ _ hmt]
    have hfiles : (runTasks (order.map fun p =>
        (p, tids p, outcomeAt outcomes p)) ⟨[], []⟩).files = [] :=
      (run_files_empty_iff _ _ _ hperm).mpr hall
    rw [if_pos (List.isEmpty_iff.mpr hfiles)]
    exact congrArg some (combine_run_eq_assembled _ _ _ hperm)
  · rintro ⟨o, ho, hleaf⟩
    rw [extract_run _ _ _ _ _ _ hmt]
    have hnonempty : ¬((runTasks (order.map fun p =>
        (p, tids p, outcomeAt outcomes p)) ⟨[], []⟩).files = []) := by
      intro hc
      have hfalse := (run_files_empty_iff _ _ _ hperm).mp hc o ho
      rw [hleaf] at hfalse
      cases hfalse
    rw [if_neg (fun hc => hnonempty (List.isEmpty_iff.mp hc))]

/-- Witness for C3: a run whose only failure is a persist failure on page 1
completes with a Document, while a run whose page 2 fails at cleanup
returns None. -/
theorem page_failure_abort_characterization_witness :
    (extract_text_from_pdf true true
        (some [PageOutcome.persistFail, PageOutcome.ok "hi"])
        none 2 (fun _ => 1) [1, 2] none).result =
      some (assembled [PageOutcome.persistFail, PageOutcome.ok "hi"]) ∧
    (extract_text_from_pdf true true
        (some [PageOutcome.ok "hi", PageOutcome.cleanupFail])
        none 2 (fun _ => 1) [2, 1] none).result = none :=
  ⟨(page_failure_abort_characterization
      [PageOutcome.persistFail, PageOutcome.ok "hi"]
      none 2 (fun _ => 1) [1, 2] none (by decide) (by decide)).1 (by decide),
    (page_failure_abort_characterization
      [PageOutcome.ok "hi", PageOutcome.cleanupFail]
      none 2 (fun _ => 1) [2, 1] none (by decide) (by decide)).2
      ⟨PageOutcome.cleanupFail, by decide, rfl⟩⟩

/-- Counterexample to C3 as stated: two pages, page 1 succeeds and page 2
fails during OCR; the claim asserts the run still returns a Document, the
code returns None. -/
theorem single_ocr_failure_aborts_run :
    (extract_text_from_pdf true true
        (some [PageOutcome.ok "A", PageOutcome.ocrFail])
        none 2 (fun _ => 3) [1, 2] none).result = none := rfl

/-- C4, corrected.  The claim asserts no transient file survives any
process_page call and the working directory is always removed after a
completed run.  In the code the file survives exactly the OCR-step and
cleanup-step failures (the except branch deletes nothing), and
correspondingly the working directory is removed iff no page met such a
failure, the leftover file count being exactly the number of pages that
did. -/
theorem transient_cleanup_characterization :
    (∀ (dir : String) (st : ProcState) (p t : Nat) (o : PageOutcome),
      (process_page dir st p t o).1.files =
        if o.leavesFile then image_path dir p t :: st.files else st.files) ∧
    (∀ (outcomes : List PageOutcome) (mtv : Option Int) (cpu : Nat)
      (tids : Nat → Nat) (order : List Nat) (out : Option String),
      0 < threadCount mtv cpu →
      order.Perm (List.range' 1 outcomes.length) →
      ((extract_text_from_pdf true true (some outcomes) mtv cpu tids order
          out).tempDirRemoved = true ↔
        ∀ o ∈ outcomes, o.leavesFile = false) ∧
      (extract_text_from_pdf true true (some outcomes) mtv cpu tids order
          out).leftoverFiles.length =
        outcomes.countP (fun o => o.leavesFile)) := by
  refine ⟨process_page_files, ?_⟩
  intro outcomes mtv cpu tids order out hmt hperm
  rw [extract_run _ _ _ _ _ _ hmt]
  by_cases hemp : (runTasks (order.map fun p =>
      (p, tids p, outcomeAt outcomes p)) ⟨[], []⟩).files = []
  · rw [if_pos (List.isEmpty_iff.mpr hemp)]
    refine ⟨⟨fun _ => (run_files_empty_iff _ _ _ hperm).mp hemp,
      fun _ => rfl⟩, ?_⟩
    have hcount := run_files_count outcomes tids order hperm
    rw [hemp] at hcount
    exact hcount
  · rw [if_neg (fun hc => hemp (List.isEmpty_iff.mp hc))]
    refine ⟨⟨fun hfalse => absurd hfalse Bool.false_ne_true, fun hall =>
      absurd ((run_files_empty_iff _ _ _ hperm).mpr hall) hemp⟩, ?_⟩
    exact run_files_count outcomes tids order hperm

/-- Witness for C4: a run of pages (ok z, OCR failure): the directory is
not removed and exactly one transient file is left. -/
theorem transient_cleanup_characterization_witness :
    ((extract_text_from_pdf true true
        (some [PageOutcome.ok "z", PageOutcome.ocrFail])
        none 2 (fun _ => 4) [1, 2] none).tempDirRemoved = true ↔
      ∀ o ∈ [PageOutcome.ok "z", PageOutcome.ocrFail],
        o.leavesFile = false) ∧
    (extract_text_from_pdf true true
        (some [PageOutcome.ok "z", PageOutcome.ocrFail])
        none 2 (fun _ => 4) [1, 2] none).leftoverFiles.length =
      [PageOutcome.ok "z", PageOutcome.ocrFail].countP
        (fun o => o.leavesFile) :=
  transient_cleanup_characterization.2 [PageOutcome.ok "z", PageOutcome.ocrFail]
    none 2 (fun _ => 4) [1, 2] none (by decide) (by decide)

/-- Counterexample to C4 as stated: a page task that fails at the cleanup
step returns with its transient file still present, where the claim asserts
the file no longer exists after the call returns. -/
theorem cleanup_failure_leaves_file :
    (process_page "temp_ocr_images" ⟨[], []⟩ 2 3
        PageOutcome.cleanupFail).1.files =
      [image_path "temp_ocr_images" 2 3] := rfl

/-- C5, confirmed.  When every page succeeds (so every page number 1..N has
a recorded text), the run returns exactly the Document the spec describes:
the concatenation in ascending page order of each page header followed by
that page text.  The scheduler order is an arbitrary permutation of the
pages and the thread identities are arbitrary, so the result is independent
of the order in which results were inserted into the store. -/
theorem document_order_deterministic (texts : List String)
    (mtv : Option Int) (cpu : Nat) (tids : Nat → Nat) (order : List Nat)
    (out : Option String) (hmt : 0 < threadCount mtv cpu)
    (hperm : order.Perm (List.range' 1 texts.length)) :
    (extract_text_from_pdf true true (some (texts.map PageOutcome.ok)) mtv
        cpu tids order out).result = some (specDocument texts) := by
  have hperm' : order.Perm
      (List.range' 1 (texts.map PageOutcome.ok).length) := by
    rw [List.length_map]; exact hperm
  rw [extract_run _ _ _ _ _ _ hmt]
  have hfiles : (runTasks (order.map fun p =>
      (p, tids p, outcomeAt (texts.map PageOutcome.ok) p)) ⟨[], []⟩).files
        = [] :=
    (run_files_empty_iff _ _ _ hperm').mpr (map_ok_no_leaves texts)
  rw [if_pos (List.isEmpty_iff.mpr hfiles)]
  rw [combine_run_eq_assembled _ _ _ hperm', assembled_map_ok]

/-- Witness for C5: two pages executed in reversed order still produce the
ascending two-section Document. -/
theorem document_order_deterministic_witness :
    (extract_text_from_pdf true true (some (["a", "b"].map PageOutcome.ok))
        none 3 (fun _ => 9) [2, 1] none).result =
      some (specDocument ["a", "b"]) :=
  document_order_deterministic ["a", "b"] none 3 (fun _ => 9) [2, 1] none
    (by decide) (by decide)

/-- C6, confirmed.  Rasterization yielding zero pages gives an empty
Document: the run returns the empty string, not None, and the working
directory is removed without error. -/
theorem empty_pdf_empty_document (mtv : Option Int) (cpu : Nat)
    (tids : Nat → Nat) (out : Option String)
    (hmt : 0 < threadCount mtv cpu) :
    (extract_text_from_pdf true true (some []) mtv cpu tids [] out).result =
      some "" ∧
    (extract_text_from_pdf true true (some []) mtv cpu tids []
        out).tempDirRemoved = true := by
  rw [extract_run _ _ _ _ _ _ hmt]
  exact ⟨rfl, rfl⟩

/-- Witness for C6 with the default thread count on a one-CPU host. -/
theorem empty_pdf_empty_document_witness :
    (extract_text_from_pdf true true (some []) none 1 (fun _ => 0) []
        none).result = some "" ∧
    (extract_text_from_pdf true true (some []) none 1 (fun _ => 0) []
        none).tempDirRemoved = true :=
  empty_pdf_empty_document none 1 (fun _ => 0) none (by decide)

/-- C7, confirmed.  The transient file path encodes the page number and the
thread identity; two tasks with distinct (page number, thread identity)
pairs use distinct paths, so neither can overwrite the transient file of
the other. -/
theorem image_path_collision_free (dir : String) (p1 t1 p2 t2 : Nat)
    (h : (p1, t1) ≠ (p2, t2)) :
    image_path dir p1 t1 ≠ image_path dir p2 t2 := by
  intro hc
  obtain ⟨hp, ht⟩ := image_path_inj dir p1 t1 p2 t2 hc
  exact h (by rw [hp, ht])

/-- Witness for C7: page 1 on thread 2 and page 2 on thread 1 get distinct
paths (the digit-swap case a naive encoding would collide on). -/
theorem image_path_collision_free_witness :
    image_path temp_dir 1 2 ≠ image_path temp_dir 2 1 :=
  image_path_collision_free temp_dir 1 2 2 1 (by decide)

/-- C8, confirmed.  process_page returns normally on every input: both on
success and under any failure of the persist, OCR, or cleanup steps the
call returns a value, and every failing outcome yields (pageNumber, ""),
so no page task can abort a sibling by propagating an exception. -/
theorem process_page_never_raises (dir : String) (st : ProcState)
    (p t : Nat) (o : PageOutcome) :
    (process_page dir st p t o).2 =
      match o with
      | .ok txt => (p, txt)
      | _ => (p, "") := by
  cases o <;> rfl

/-- C9, confirmed.  A failed dependency preflight, a missing PDF path, or a
rasterization error each yield no Document: the call returns None, no
output file is written, and no page task is executed. -/
theorem run_level_failure_no_output (deps pdf : Bool)
    (raster : Option (List PageOutcome)) (mtv : Option Int) (cpu : Nat)
    (tids : Nat → Nat) (order : List Nat) (out : Option String)
    (h : deps = false ∨ pdf = false ∨ raster = none) :
    (extract_text_from_pdf deps pdf raster mtv cpu tids order out).result =
        none ∧
    (extract_text_from_pdf deps pdf raster mtv cpu tids order
        out).outputWritten = none ∧
    (extract_text_from_pdf deps pdf raster mtv cpu tids order
        out).processed = [] := by
  rcases h with h | h | h
  · subst h
    exact ⟨rfl, rfl, rfl⟩
  · subst h
    cases deps
    · exact ⟨rfl, rfl, rfl⟩
    · exact ⟨rfl, rfl, rfl⟩
  · subst h
    cases deps
    · exact ⟨rfl, rfl, rfl⟩
    · cases pdf
      · exact ⟨rfl, rfl, rfl⟩
      · exact ⟨rfl, rfl, rfl⟩

/-- Witness for C9: preflight failure with an output path requested; no
result, no output file, no page processed. -/
theorem run_level_failure_no_output_witness :
    (extract_text_from_pdf false true (some [PageOutcome.ok "A"]) none 4
        (fun _ => 0) [1] (some "out.txt")).result = none ∧
    (extract_text_from_pdf false true (some [PageOutcome.ok "A"]) none 4
        (fun _ => 0) [1] (some "out.txt")).outputWritten = none ∧
    (extract_text_from_pdf false true (some [PageOutcome.ok "A"]) none 4
        (fun _ => 0) [1] (some "out.txt")).processed = [] :=
  run_level_failure_no_output false true (some [PageOutcome.ok "A"]) none 4
    (fun _ => 0) [1] (some "out.txt") (Or.inl rfl)

/-- C10, confirmed.  An explicit max_threads value of zero or below makes
the pool constructor raise ValueError; the outer handler of
extract_text_from_pdf catches it and the call returns None like any other
run-level failure, with no output written and no page processed. -/
theorem nonpositive_threads_return_none (outcomes : List PageOutcome)
    (v : Int) (cpu : Nat) (tids : Nat → Nat) (order : List Nat)
    (out : Option String) (hv : v ≤ 0) :
    (extract_text_from_pdf true true (some outcomes) (some v) cpu tids order
        out).result = none ∧
    (extract_text_from_pdf true true (some outcomes) (some v) cpu tids order
        out).outputWritten = none ∧
    (extract_text_from_pdf true true (some outcomes) (some v) cpu tids order
        out).processed = [] := by
  unfold extract_text_from_pdf
  rw [if_neg (by decide), if_neg (by decide)]
  simp only [if_pos (show threadCount (some v) cpu ≤ 0 from hv)]
  exact ⟨trivial, trivial, trivial⟩

/-- Witness for C10 at max_threads zero. -/
theorem nonpositive_threads_return_none_witness :
    (extract_text_from_pdf true true (some [PageOutcome.ok "A"]) (some 0) 8
        (fun _ => 2) [1] (some "o.txt")).result = none ∧
    (extract_text_from_pdf true true (some [PageOutcome.ok "A"]) (some 0) 8
        (fun _ => 2) [1] (some "o.txt")).outputWritten = none ∧
    (extract_text_from_pdf true true (some [PageOutcome.ok "A"]) (some 0) 8
        (fun _ => 2) [1] (some "o.txt")).processed = [] :=
  nonpositive_threads_return_none [PageOutcome.ok "A"] 0 8 (fun _ => 2) [1]
    (some "o.txt") (by decide)

end Wordify
